import Mathlib

/-!
Verification of the envelope_client protocol layer.

The definitions below are shallow embeddings of the TypeScript sources:
`src/Socket.ts` (connection adapter, call/respond correlator, type dispatch,
heartbeats), `src/types.ts` (wire shapes) and the current `useChannels`
module (channel subscription manager).  Opaque JSON payloads are modelled
by type parameters or token types; timers are modelled by explicit deadline
values and explicit firing events; handler functions are modelled by
identity tokens and traces of their invocations.
-/

namespace EnvelopeClient

/-! ## Wire shapes (src/types.ts) -/

/-- From `types.ts`: `PydanticError` — one field-level validation error,
`{loc, msg, type}`. -/
structure PydanticError where
  loc : List String
  msg : String
  type : String
deriving DecidableEq, Repr

/-- From `types.ts`: a Failed frame's payload is `{msg}` or `{msg, errors}`;
the `Option` models presence of the `errors` key. -/
structure FailedPayload where
  msg : String
  errors : Option (List PydanticError)
deriving DecidableEq, Repr

/-- From `types.ts`: `isValidationErrorPayload` tests presence of the
`errors` key (`'errors' in p`). -/
def isValidationErrorPayload (p : FailedPayload) : Bool :=
  p.errors.isSome

/-- From `types.ts`: `Progress` — `{curr, total, msg?}`. -/
structure Progress where
  curr : Nat
  total : Nat
  msg : Option String
deriving DecidableEq, Repr

/-! ## The call correlator (Socket.call, Socket.ts lines 204-260)

One pending call is a closure over `timeoutId` plus a registry entry in
`this.callbacks`.  We model the life of a single pending call as a state
machine: `registered` is whether `callbacks` still maps the call's
correlation id to the callback, `deadline` is the absolute time at which an
armed `setTimeout` would fire (`none` when no timer is armed), `result` is
the settled state of the returned promise, and `progressLog` records the
payloads forwarded to the progress channel.  `ProgressPromise` itself is
not part of the snapshot; per the spec's Deferred Result Primitive only the
first resolve/reject takes effect, which `Option.orElse` encodes. -/

/-- An inbound frame as seen by the registered callback, discriminated like
the `switch (data.s)` in `Socket.call`: Failed, Queued, Running, Success
and the defensive default branch for unknown states. -/
inductive CallFrame
  | failed (p : FailedPayload)
  | queued (p : Option Progress)
  | running (p : Option Progress)
  | success
  | unknown (s : String)
deriving DecidableEq, Repr

/-- How the `ProgressPromise` of a call was settled. -/
inductive CallResult
  | resolved
  | timeoutErr
  | validationErr (msg : String) (errors : List PydanticError)
  | genericErr (msg : String)
  | unknownStateErr (s : String)
deriving DecidableEq, Repr

/-- State of one pending call and its timer. -/
structure CallState where
  registered : Bool
  deadline : Option Nat
  result : Option CallResult
  progressLog : List Progress
  now : Nat
  cfgTimeout : Nat
deriving DecidableEq, Repr

/-- `setRejectTimeout` (Socket.ts 224-230): arms nothing when
`myConfig.timeout` is falsy (modelled as 0), otherwise arms a timer one
full window from the current time. -/
def armDeadline (now cfg : Nat) : Option Nat :=
  if cfg = 0 then none else some (now + cfg)

/-- State right after `Socket.call` returned: the callback is registered
and `setRejectTimeout()` has run once at time 0. -/
def initCall (cfg : Nat) : CallState :=
  { registered := true
    deadline := armDeadline 0 cfg
    result := none
    progressLog := []
    now := 0
    cfgTimeout := cfg }

/-- Events a pending call can experience: time passing, the armed timeout
firing, and an inbound frame for its correlation id. -/
inductive CallEvent
  | tick
  | fire
  | frame (f : CallFrame)
deriving DecidableEq, Repr

/-- One step of the pending call.  `fire` is the body of the `setTimeout`
callback (Socket.ts 226-229): it deletes the registry entry and rejects
with the Timeout error; it can only happen while a timer is armed and its
deadline has passed.  `frame f` is the registered callback (Socket.ts
233-258): it runs only while the entry is registered, first clears the
armed timer, then switches on the frame's state. -/
def callStep (s : CallState) : CallEvent → CallState
  | .tick => { s with now := s.now + 1 }
  | .fire =>
      match s.deadline with
      | some d =>
          if d ≤ s.now then
            { s with registered := false, deadline := none,
                     result := s.result.orElse fun _ => some .timeoutErr }
          else s
      | none => s
  | .frame f =>
      if s.registered then
        let s1 := { s with deadline := none }
        match f with
        | .failed p =>
            { s1 with registered := false,
                      result := s1.result.orElse fun _ => some (match p.errors with
                        | some es => .validationErr p.msg es
                        | none => .genericErr p.msg) }
        | .queued p =>
            { s1 with deadline := armDeadline s.now s.cfgTimeout,
                      progressLog := s1.progressLog ++ p.toList }
        | .running p =>
            { s1 with deadline := armDeadline s.now s.cfgTimeout,
                      progressLog := s1.progressLog ++ p.toList }
        | .success =>
            { s1 with registered := false,
                      result := s1.result.orElse fun _ => some .resolved }
        | .unknown str =>
            { s1 with registered := false,
                      result := s1.result.orElse fun _ => some (.unknownStateErr str) }
      else s

/-- Run a pending call through a sequence of events. -/
def runCall (s : CallState) (es : List CallEvent) : CallState :=
  es.foldl callStep s

/-- Frames whose handling removes the pending entry: Failed, Success, and
the defensive default branch. -/
def isTerminalEvent : CallEvent → Bool
  | .frame (.failed _) => true
  | .frame .success => true
  | .frame (.unknown _) => true
  | _ => false

theorem runCall_replicate_tick (s : CallState) (n : Nat) :
    runCall s (List.replicate n .tick) = { s with now := s.now + n } := by
  induction n generalizing s with
  | zero => rfl
  | succ k ih =>
      rw [List.replicate_succ]
      show runCall (callStep s .tick) (List.replicate k .tick) = _
      rw [ih]
      have h : s.now + 1 + k = s.now + (k + 1) := by omega
      simp [callStep, h]

/-- Claim C1: if no inbound frame arrives within the timeout window the
armed timer fires, which removes the pending entry and rejects the promise
with the Timeout error; every inbound Queued/Running frame cancels the
armed timer and re-arms it for a full fresh window counted from the moment
the frame is handled (cancel-and-restart, not extend), forwarding its
payload to the progress channel if and only if the payload is present; and
a call that only sees time pass until past its window ends removed and
Timeout-rejected. -/
theorem call_timeout_fires_and_progress_rearms :
    (∀ s : CallState, ∀ d : Nat, s.registered = true → s.result = none →
      s.deadline = some d → d ≤ s.now →
      (callStep s .fire).registered = false ∧
      (callStep s .fire).result = some .timeoutErr) ∧
    (∀ s : CallState, ∀ p : Option Progress, s.registered = true →
      s.cfgTimeout ≠ 0 →
      ((callStep s (.frame (.queued p))).deadline = some (s.now + s.cfgTimeout) ∧
       (callStep s (.frame (.queued p))).progressLog = s.progressLog ++ p.toList) ∧
      ((callStep s (.frame (.running p))).deadline = some (s.now + s.cfgTimeout) ∧
       (callStep s (.frame (.running p))).progressLog = s.progressLog ++ p.toList)) ∧
    (∀ cfg n : Nat, cfg ≠ 0 → cfg ≤ n →
      (runCall (initCall cfg) (List.replicate n .tick ++ [.fire])).registered = false ∧
      (runCall (initCall cfg) (List.replicate n .tick ++ [.fire])).result =
        some .timeoutErr) := by
  refine ⟨fun s d hreg hres hdl hle => ?_, fun s p hreg hcfg => ?_, fun cfg n hcfg hle => ?_⟩
  · simp [callStep, hdl, hle, hres]
  · constructor <;> simp [callStep, hreg, armDeadline, hcfg]
  · have h1 : runCall (initCall cfg) (List.replicate n .tick ++ [.fire])
        = callStep (runCall (initCall cfg) (List.replicate n .tick)) .fire := by
      simp [runCall]
    rw [h1, runCall_replicate_tick]
    simp [callStep, initCall, armDeadline, hcfg, hle]

theorem call_timeout_fires_and_progress_rearms_witness :
    (callStep ⟨true, some 5, none, [], 6, 5⟩ .fire).registered = false ∧
    (callStep ⟨true, some 5, none, [], 6, 5⟩ .fire).result = some .timeoutErr ∧
    (callStep ⟨true, some 5, none, [], 2, 5⟩
        (.frame (.queued (some ⟨1, 2, none⟩)))).deadline = some 7 ∧
    (runCall (initCall 5) (List.replicate 9 .tick ++ [.fire])).result =
      some .timeoutErr := by
  refine ⟨?_, ?_, ?_, ?_⟩
  · exact (call_timeout_fires_and_progress_rearms.1 _ 5 rfl rfl rfl (by decide)).1
  · exact (call_timeout_fires_and_progress_rearms.1 _ 5 rfl rfl rfl (by decide)).2
  · exact ((call_timeout_fires_and_progress_rearms.2.1 ⟨true, some 5, none, [], 2, 5⟩
      (some ⟨1, 2, none⟩) rfl (by decide)).1).1
  · exact (call_timeout_fires_and_progress_rearms.2.2 5 9 (by decide) (by decide)).2

/-- Claim C7: a Failed frame for a registered pending call removes the
entry and rejects with a structured validation error carrying all the
(location, message) pairs exactly when the failure payload has an `errors`
field, and with a generic error carrying only the message otherwise. -/
theorem failed_frame_rejection_shape (s : CallState) (p : FailedPayload)
    (hreg : s.registered = true) (hres : s.result = none) :
    (callStep s (.frame (.failed p))).registered = false ∧
    (∀ es : List PydanticError, p.errors = some es →
      (callStep s (.frame (.failed p))).result = some (.validationErr p.msg es)) ∧
    (p.errors = none →
      (callStep s (.frame (.failed p))).result = some (.genericErr p.msg)) ∧
    (isValidationErrorPayload p = true ↔
      ∃ es : List PydanticError,
        (callStep s (.frame (.failed p))).result = some (.validationErr p.msg es)) := by
  refine ⟨by simp [callStep, hreg], fun es hes => by simp [callStep, hreg, hres, hes],
    fun hnone => by simp [callStep, hreg, hres, hnone], ?_⟩
  constructor
  · intro hval
    rcases Option.isSome_iff_exists.mp (by simpa [isValidationErrorPayload] using hval)
      with ⟨es, hes⟩
    exact ⟨es, by simp [callStep, hreg, hres, hes]⟩
  · rintro ⟨es, hes⟩
    by_contra hnot
    have hnone : p.errors = none := by
      cases h : p.errors with
      | none => rfl
      | some l => exact absurd (by simp [isValidationErrorPayload, h]) hnot
    simp [callStep, hreg, hres, hnone] at hes

theorem failed_frame_rejection_shape_witness :
    (callStep (initCall 5) (.frame (.failed ⟨"bad", some [⟨["a"], "m", "t"⟩]⟩))).result
      = some (.validationErr "bad" [⟨["a"], "m", "t"⟩]) ∧
    (callStep (initCall 5) (.frame (.failed ⟨"oops", none⟩))).result
      = some (.genericErr "oops") := by
  exact ⟨(failed_frame_rejection_shape (initCall 5) ⟨"bad", some [⟨["a"], "m", "t"⟩]⟩
      rfl rfl).2.1 _ rfl,
    (failed_frame_rejection_shape (initCall 5) ⟨"oops", none⟩ rfl rfl).2.2.1 rfl⟩

theorem callStep_zero_cfg_inv (s : CallState) (e : CallEvent)
    (hc : s.cfgTimeout = 0) (hd : s.deadline = none)
    (hnt : s.result ≠ some .timeoutErr) :
    (callStep s e).cfgTimeout = 0 ∧ (callStep s e).deadline = none ∧
    (callStep s e).result ≠ some .timeoutErr := by
  cases e with
  | tick => exact ⟨hc, hd, hnt⟩
  | fire => simp [callStep, hd, hc, hnt]
  | frame f =>
      by_cases hreg : s.registered
      · cases f with
        | failed p =>
            cases hpe : p.errors <;> cases hr : s.result <;>
              simp_all [callStep, Option.orElse]
        | queued p => simp [callStep, hreg, hc, armDeadline, hnt]
        | running p => simp [callStep, hreg, hc, armDeadline, hnt]
        | success => cases hr : s.result <;> simp_all [callStep, Option.orElse]
        | unknown str => cases hr : s.result <;> simp_all [callStep, Option.orElse]
      · simpa [callStep, hreg] using ⟨hc, hd, hnt⟩

theorem callStep_zero_cfg_quiet (s : CallState) (e : CallEvent)
    (hc : s.cfgTimeout = 0) (hd : s.deadline = none)
    (hreg : s.registered = true) (hres : s.result = none)
    (hnt : isTerminalEvent e = false) :
    (callStep s e).cfgTimeout = 0 ∧ (callStep s e).deadline = none ∧
    (callStep s e).registered = true ∧ (callStep s e).result = none := by
  cases e with
  | tick => exact ⟨hc, hd, hreg, hres⟩
  | fire => simp [callStep, hd, hc, hreg, hres]
  | frame f =>
      cases f with
      | failed p => simp [isTerminalEvent] at hnt
      | queued p => simp [callStep, hreg, hc, armDeadline, hres]
      | running p => simp [callStep, hreg, hc, armDeadline, hres]
      | success => simp [isTerminalEvent] at hnt
      | unknown str => simp [isTerminalEvent] at hnt

/-- Claim C10: with a falsy (0) effective timeout no timer is ever armed:
along any event sequence the call never rejects with the Timeout error, and
as long as no terminal (Failed/Success/unknown-state) frame arrives the
pending entry persists and the promise stays unsettled. -/
theorem zero_timeout_never_rejects (es : List CallEvent) :
    (runCall (initCall 0) es).result ≠ some .timeoutErr ∧
    ((∀ e ∈ es, isTerminalEvent e = false) →
      (runCall (initCall 0) es).registered = true ∧
      (runCall (initCall 0) es).result = none) := by
  have main : ∀ (l : List CallEvent) (s : CallState),
      s.cfgTimeout = 0 → s.deadline = none → s.result ≠ some .timeoutErr →
      (runCall s l).result ≠ some .timeoutErr := by
    intro l
    induction l with
    | nil => intro s _ _ h; exact h
    | cons e tl ih =>
        intro s hc hd hnt
        obtain ⟨h1, h2, h3⟩ := callStep_zero_cfg_inv s e hc hd hnt
        exact ih (callStep s e) h1 h2 h3
  have quiet : ∀ (l : List CallEvent) (s : CallState),
      s.cfgTimeout = 0 → s.deadline = none → s.registered = true → s.result = none →
      (∀ e ∈ l, isTerminalEvent e = false) →
      (runCall s l).registered = true ∧ (runCall s l).result = none := by
    intro l
    induction l with
    | nil => intro s _ _ hr hn _; exact ⟨hr, hn⟩
    | cons e tl ih =>
        intro s hc hd hr hn hall
        obtain ⟨h1, h2, h3, h4⟩ := callStep_zero_cfg_quiet s e hc hd hr hn
          (hall e (List.mem_cons_self e tl))
        exact ih (callStep s e) h1 h2 h3 h4 fun x hx => hall x (List.mem_cons_of_mem e hx)
  exact ⟨main es (initCall 0) rfl rfl (by simp [initCall]),
    fun hall => quiet es (initCall 0) rfl rfl rfl rfl hall⟩

theorem zero_timeout_never_rejects_witness :
    (runCall (initCall 0) [.tick, .fire, .frame (.queued none), .tick, .fire]).result
      ≠ some .timeoutErr ∧
    (runCall (initCall 0) [.tick, .fire, .frame (.queued none), .tick, .fire]).registered
      = true := by
  refine ⟨(zero_timeout_never_rejects _).1, ?_⟩
  exact ((zero_timeout_never_rejects
    [.tick, .fire, .frame (.queued none), .tick, .fire]).2 (by decide)).1

/-! ## Socket-level correlator state (Socket.ts)

`messageID` is the per-instance counter (Socket.ts 36), `pending` the keys
of the `callbacks` map (the wire correlation id of a pending entry `n` is
the decimal string `toString n`, per `String(++this.messageID)`), and
`sent` the frames handed to `ws.send` in order.  `readyState` mirrors
`ws?.readyState` (`none` = no transport handle); the WebSocket constants
are CONNECTING 0, OPEN 1, CLOSING 2, CLOSED 3. -/

/-- An outbound frame as serialized for `ws.send`. -/
structure OutFrame where
  t : String
  i : Option String
  s : Option String
  hasPayload : Bool
deriving DecidableEq, Repr

/-- Correlator-relevant state of one `Socket` instance. -/
structure SocketState where
  messageID : Nat
  pending : List Nat
  readyState : Option Nat
  sent : List OutFrame
deriving DecidableEq, Repr

/-- The numeric value of `WebSocket.OPEN`. -/
def WS_OPEN : Nat := 1

/-- `isOpen` getter (Socket.ts 188-190). -/
def SocketState.isOpen (m : SocketState) : Bool :=
  m.readyState == some WS_OPEN

/-- `assertOpen` (Socket.ts 192-195) is declared `async`, so when the
socket is not open the thrown error becomes the rejection of the returned
promise.  Every call site invokes it without `await` and discards the
returned promise, so the rejection never interrupts the caller.  This
records whether the discarded promise was rejected. -/
def assertOpenRejects (m : SocketState) : Bool :=
  !m.isOpen

/-- `Socket.call` (Socket.ts 204-260), the synchronous part: the unawaited
`assertOpen()` does not alter control flow, `++this.messageID` allocates
the next correlation id, `ws?.send` transmits `{t, i, p}` whenever a
transport handle exists, and the `ProgressPromise` executor (which runs
synchronously) registers the response callback under the new id. -/
def callFn (m : SocketState) (t : String) (hasP : Bool) : SocketState :=
  let mid := m.messageID + 1
  { m with
    messageID := mid,
    sent := if m.readyState.isSome then
        m.sent ++ [⟨t, some (toString mid), none, hasP⟩]
      else m.sent,
    pending := m.pending ++ [mid] }

/-- `Socket.send` (Socket.ts 267-272): fire-and-forget `{t, p}`; the
unawaited `assertOpen()` again does not stop the transmission attempt. -/
def sendFn (m : SocketState) (t : String) (hasP : Bool) : SocketState :=
  { m with
    sent := if m.readyState.isSome then m.sent ++ [⟨t, none, none, hasP⟩] else m.sent }

/-- `Socket.respond` (Socket.ts 281-290): `{t, i, p, s}`, same pattern. -/
def respondFn (m : SocketState) (t : String) (i : Option String) (st : String)
    (hasP : Bool) : SocketState :=
  { m with
    sent := if m.readyState.isSome then m.sent ++ [⟨t, i, some st, hasP⟩] else m.sent }

/-- A closed socket (readyState CLOSED, transport handle still present). -/
def closedSock : SocketState :=
  { messageID := 0, pending := [], readyState := some 3, sent := [] }

/-- Claim C2 (code bug): the not-open guard in `assertOpen` detects the
closed socket, but because `assertOpen` is `async` and invoked without
`await`, `call` on a closed socket still consumes a correlation id,
registers a pending entry and hands the frame to `ws.send`; `send` and
`respond` likewise still transmit.  Nothing fails synchronously. -/
theorem call_send_respond_proceed_when_not_open :
    assertOpenRejects closedSock = true ∧
    closedSock.isOpen = false ∧
    (callFn closedSock "test.call" false).messageID = 1 ∧
    (callFn closedSock "test.call" false).pending = [1] ∧
    (callFn closedSock "test.call" false).sent
      = [⟨"test.call", some "1", none, false⟩] ∧
    (sendFn closedSock "test.send" true).sent = [⟨"test.send", none, none, true⟩] ∧
    (respondFn closedSock "test.resp" (some "4") "s" true).sent
      = [⟨"test.resp", some "4", some "s", true⟩] := by
  refine ⟨rfl, rfl, rfl, rfl, ?_, rfl, rfl⟩
  simp [callFn, closedSock]
  rfl

/-- Correlator events at the socket level: `call` allocates and registers,
`send` transmits without registering, `settle i` is `callbacks.delete(i)`
on a terminal frame, a timeout, or an unknown-state frame. -/
inductive SockEvent
  | call (t : String) (hasP : Bool)
  | send (t : String) (hasP : Bool)
  | settle (i : Nat)
deriving DecidableEq, Repr

def sockStep (m : SocketState) : SockEvent → SocketState
  | .call t hp => callFn m t hp
  | .send t hp => sendFn m t hp
  | .settle i => { m with pending := m.pending.erase i }

def runSock (m : SocketState) (es : List SockEvent) : SocketState :=
  es.foldl sockStep m

/-- A freshly constructed socket: `messageID = 0`, no pending entries. -/
def initSock (rs : Option Nat) : SocketState :=
  { messageID := 0, pending := [], readyState := rs, sent := [] }

/-- Pending correlation ids are strictly increasing and bounded by the
counter. -/
def SockInv (m : SocketState) : Prop :=
  m.pending.Chain' (· < ·) ∧ ∀ i ∈ m.pending, 1 ≤ i ∧ i ≤ m.messageID

theorem sockStep_inv (m : SocketState) (e : SockEvent) (h : SockInv m) :
    SockInv (sockStep m e) := by
  obtain ⟨hch, hbd⟩ := h
  cases e with
  | call t hp =>
      have hpend : (sockStep m (.call t hp)).pending
          = m.pending ++ [m.messageID + 1] := rfl
      have hmid : (sockStep m (.call t hp)).messageID = m.messageID + 1 := rfl
      refine ⟨?_, ?_⟩
      · rw [hpend, List.chain'_append]
        refine ⟨hch, List.chain'_singleton _, ?_⟩
        intro x hx y hy
        obtain ⟨hne, rfl⟩ := List.mem_getLast?_eq_getLast hx
        have hxm : m.pending.getLast hne ∈ m.pending := List.getLast_mem hne
        have hy' : m.messageID + 1 = y := by simpa using hy
        have := (hbd _ hxm).2
        omega
      · rw [hpend, hmid]
        intro j hj
        rcases List.mem_append.mp hj with h1 | h2
        · obtain ⟨ha, hb⟩ := hbd j h1
          exact ⟨ha, by omega⟩
        · have hj' : j = m.messageID + 1 := by simpa using h2
          exact ⟨by omega, by omega⟩
  | send t hp => exact ⟨hch, hbd⟩
  | settle i =>
      refine ⟨hch.sublist (List.erase_sublist i m.pending), ?_⟩
      intro j hj
      exact hbd j (List.mem_of_mem_erase hj)

theorem runSock_inv_aux (es : List SockEvent) :
    ∀ m : SocketState, SockInv m → SockInv (runSock m es) := by
  induction es with
  | nil => intro m h; exact h
  | cons e tl ih =>
      intro m h
      exact ih (sockStep m e) (sockStep_inv m e h)

theorem runSock_readyState (es : List SockEvent) :
    ∀ m : SocketState, (runSock m es).readyState = m.readyState := by
  induction es with
  | nil => intro m; rfl
  | cons e tl ih =>
      intro m
      have h1 : runSock m (e :: tl) = runSock (sockStep m e) tl := rfl
      rw [h1, ih]
      cases e <;> rfl

theorem chain'_lt_nodup (l : List Nat) (h : l.Chain' (· < ·)) : l.Nodup :=
  (List.chain'_iff_pairwise.mp h).imp Nat.ne_of_lt

/-- Claim C8: per instance, each `call` allocates the successor of the
previous correlation id (transmitted as its decimal string), the pending
registry never holds two entries for one id, and an id is never handed out
again while a call with it is outstanding: along every event sequence the
pending ids are strictly increasing, duplicate-free, and the next id to be
allocated is not among them. -/
theorem correlation_ids_monotone_unique (rs : Option Nat) (es : List SockEvent)
    (t : String) (hp : Bool) :
    SockInv (runSock (initSock rs) es) ∧
    (runSock (initSock rs) es).pending.Nodup ∧
    ((runSock (initSock rs) es).messageID + 1) ∉ (runSock (initSock rs) es).pending ∧
    (callFn (runSock (initSock rs) es) t hp).messageID
      = (runSock (initSock rs) es).messageID + 1 ∧
    (callFn (runSock (initSock rs) es) t hp).pending
      = (runSock (initSock rs) es).pending ++ [(runSock (initSock rs) es).messageID + 1] ∧
    (rs.isSome = true →
      (callFn (runSock (initSock rs) es) t hp).sent
        = (runSock (initSock rs) es).sent
          ++ [⟨t, some (toString ((runSock (initSock rs) es).messageID + 1)), none, hp⟩]) := by
  have h0 : SockInv (initSock rs) := by
    refine ⟨List.chain'_nil, ?_⟩
    intro i h
    simp [initSock] at h
  have hinv := runSock_inv_aux es (initSock rs) h0
  refine ⟨hinv, chain'_lt_nodup _ hinv.1, ?_, rfl, rfl, ?_⟩
  · intro hmem
    have := (hinv.2 _ hmem).2
    omega
  · intro hrs
    have hready : (runSock (initSock rs) es).readyState = rs :=
      runSock_readyState es (initSock rs)
    simp [callFn, hready, hrs]

theorem correlation_ids_monotone_unique_witness :
    SockInv (runSock (initSock (some 1)) [.call "a" false, .call "b" true, .settle 1]) ∧
    (callFn (runSock (initSock (some 1)) [.call "a" false, .call "b" true, .settle 1])
        "c" false).sent
      = (runSock (initSock (some 1)) [.call "a" false, .call "b" true, .settle 1]).sent
        ++ [⟨"c", some "3", none, false⟩] := by
  refine ⟨(correlation_ids_monotone_unique (some 1)
    [.call "a" false, .call "b" true, .settle 1] "c" false).1, ?_⟩
  exact (correlation_ids_monotone_unique (some 1)
    [.call "a" false, .call "b" true, .settle 1] "c" false).2.2.2.2.2 rfl

/-! ## Heartbeats (Socket.ts 292-337)

A heartbeat entry is `{callback, direction, ms, intervalID}`; callbacks are
compared by function identity, modelled by a numeric token.  `intervalID`
is the armed interval timer handle (absent when dormant). -/

/-- Heartbeat direction filter. -/
inductive HbDirection
  | incoming
  | outgoing
deriving DecidableEq, Repr

/-- One registered heartbeat entry (`Heartbeat` in types.ts). -/
structure HeartbeatEntry where
  callback : Nat
  direction : Option HbDirection
  ms : Nat
  intervalID : Option Nat
deriving DecidableEq, Repr

/-- `removeHeartbeat` (Socket.ts 311-318): `find` locates the
first-registered entry whose callback matches; its timer handle is passed
to `clearInterval`; then the registry is replaced by `filter` dropping
every matching entry.  Returns the new registry and the list of timer
handles actually cleared. -/
def removeHeartbeat (hbs : List HeartbeatEntry) (cb : Nat) :
    List HeartbeatEntry × List (Option Nat) :=
  match hbs.find? fun b => b.callback == cb with
  | none => (hbs, [])
  | some b => (hbs.filter fun x => !(x.callback == cb), [b.intervalID])

/-- Claim C9 counterexample: with two entries registered for the same
callback, `removeHeartbeat` leaves no entry for that callback — the
later-registered entry is not left registered as the claim states (and its
timer handle, `some 2`, is not among those cleared). -/
theorem remove_heartbeat_drops_later_duplicates :
    (removeHeartbeat [⟨7, none, 50, some 1⟩, ⟨7, none, 60, some 2⟩] 7).1 = [] ∧
    (⟨7, none, 60, some 2⟩ : HeartbeatEntry)
      ∉ (removeHeartbeat [⟨7, none, 50, some 1⟩, ⟨7, none, 60, some 2⟩] 7).1 ∧
    (removeHeartbeat [⟨7, none, 50, some 1⟩, ⟨7, none, 60, some 2⟩] 7).2
      = [some 1] := by
  refine ⟨rfl, ?_, rfl⟩
  simp [removeHeartbeat]

/-- Claim C9 (amended): `removeHeartbeat(callback)` cancels the timer of
the first-registered matching entry only, but removes every entry whose
callback matches (later duplicates are dropped without their timers being
cleared); entries with other callbacks are kept, and a callback with no
registered entry changes nothing. -/
theorem remove_heartbeat_amended (hbs : List HeartbeatEntry) (cb : Nat) :
    ((hbs.find? fun b => b.callback == cb) = none →
      removeHeartbeat hbs cb = (hbs, [])) ∧
    (∀ x ∈ (removeHeartbeat hbs cb).1, x.callback ≠ cb) ∧
    (∀ x ∈ hbs, x.callback ≠ cb → x ∈ (removeHeartbeat hbs cb).1) ∧
    (∀ b : HeartbeatEntry, (hbs.find? fun b => b.callback == cb) = some b →
      (removeHeartbeat hbs cb).2 = [b.intervalID]) := by
  refine ⟨fun hnone => by simp [removeHeartbeat, hnone], ?_, ?_, ?_⟩
  · intro x hx
    cases hfind : hbs.find? fun b => b.callback == cb with
    | none =>
        simp only [removeHeartbeat, hfind] at hx
        have := List.find?_eq_none.mp hfind x hx
        simpa using this
    | some b =>
        simp only [removeHeartbeat, hfind] at hx
        have := List.of_mem_filter hx
        simpa using this
  · intro x hx hne
    cases hfind : hbs.find? fun b => b.callback == cb with
    | none => simpa [removeHeartbeat, hfind] using hx
    | some b =>
        simp only [removeHeartbeat, hfind]
        exact List.mem_filter.mpr ⟨hx, by simpa using hne⟩
  · intro b hfind
    simp [removeHeartbeat, hfind]

theorem remove_heartbeat_amended_witness :
    removeHeartbeat [⟨9, some .incoming, 10, some 3⟩] 5
      = ([⟨9, some .incoming, 10, some 3⟩], []) ∧
    (removeHeartbeat [⟨9, some .incoming, 10, some 3⟩, ⟨9, none, 20, some 4⟩] 9).2
      = [some 3] := by
  exact ⟨(remove_heartbeat_amended [⟨9, some .incoming, 10, some 3⟩] 5).1 rfl,
    (remove_heartbeat_amended [⟨9, some .incoming, 10, some 3⟩, ⟨9, none, 20, some 4⟩]
      9).2.2.2 ⟨9, some .incoming, 10, some 3⟩ rfl⟩

/-! ## Type dispatch and batch unwrapping (Socket.ts 63-86, 164-173)

Handlers are opaque functions compared by identity; we model them by
tokens, with the handler installed by the `Socket` constructor for the
`"s"` namespace distinguished.  Dispatching is modelled by the trace of
handler invocations, each paired with the frame the handler receives.
Payloads are opaque (`α`); a batch payload is the `{t, payloads}` shape. -/

/-- A registered type handler: the constructor-installed system handler or
an application handler (identified by a token). -/
inductive THandler
  | system
  | user (id : Nat)
deriving DecidableEq, Repr

/-- A frame payload: an opaque object, or the `BatchPayload` shape. -/
inductive JPayload (α : Type)
  | obj (a : α)
  | batch (t : String) (payloads : List α)
deriving DecidableEq, Repr

/-- An inbound frame as seen by type handlers: `{t, i, p}`. -/
structure Frame (α : Type) where
  t : String
  i : Option String
  p : Option (JPayload α)
deriving DecidableEq, Repr

/-- The `typeHandlers` registry: namespace → handlers in registration
order. -/
abbrev TypeHandlers := List (String × List THandler)

def lookupTH (th : TypeHandlers) (ns : String) : Option (List THandler) :=
  (th.find? fun e => e.1 == ns).map (·.2)

/-- `msg.t.split('.')[0]` — the namespace part of a dotted type tag: the
characters before the first `'.'` (the whole tag when it has none). -/
def namespaceOf (t : String) : String :=
  String.mk (t.data.takeWhile fun c => c != '.')

/-- `handleBatchMessage` (Socket.ts 75-86): looks up the handlers for the
sub-type's namespace and invokes each handler once per payload — handler
loop outside, payload loop inside — with the synthetic frame
`{t: subType, i: outer i, p: payload}`.  Missing registry entry: warn
(debug only) and dispatch nothing. -/
def handleBatchMessage (th : TypeHandlers) (bt : String) (payloads : List α)
    (i : Option String) : List (THandler × Frame α) :=
  match lookupTH th (namespaceOf bt) with
  | none => []
  | some handlers =>
      handlers.flatMap fun h => payloads.map fun p => (h, ⟨bt, i, some (.obj p)⟩)

/-- The body of the system handler registered by the constructor
(Socket.ts 64-66): on a frame whose type is exactly `"s.batch"` it unwraps
the batch payload; any other frame is ignored. -/
def systemHandlerCalls (th : TypeHandlers) (f : Frame α) : List (THandler × Frame α) :=
  if f.t = "s.batch" then
    match f.p with
    | some (.batch bt ps) => handleBatchMessage th bt ps f.i
    | _ => []
  else []

/-- Body of the dispatch loop in `handleTypeMessage`: one handler is
invoked with the full frame; if it is the system handler, the batch
unwrapping it performs follows inline. -/
def dispatchOne (th : TypeHandlers) (f : Frame α) (h : THandler) :
    List (THandler × Frame α) :=
  (h, f) :: (match h with
    | .system => systemHandlerCalls th f
    | .user _ => [])

/-- `handleTypeMessage` (Socket.ts 164-173): frames with an empty type are
dropped; otherwise every handler registered for the type's namespace is
invoked in registration order with the full frame.  The system handler's
invocation triggers the batch unwrapping inline at its position. -/
def handleTypeMessage (th : TypeHandlers) (f : Frame α) : List (THandler × Frame α) :=
  if f.t = "" then []
  else ((lookupTH th (namespaceOf f.t)).getD []).flatMap (dispatchOne th f)

theorem flatMap_indicator {β : Type} (l : List THandler) (a : THandler) (E : List β) :
    (l.flatMap fun g => if g = a then E else [])
      = (List.replicate (l.count a) E).flatten := by
  induction l with
  | nil => simp
  | cons x tl ih =>
      rw [List.flatMap_cons, ih]
      by_cases hx : x = a
      · subst hx
        simp [List.count_cons, List.replicate_succ]
      · simp [hx, List.count_cons]

theorem filter_handleBatchMessage {α : Type} (th : TypeHandlers) (X : String)
    (ps : List α) (i : Option String) (h : THandler)
    (hcount : ((lookupTH th (namespaceOf X)).getD []).count h = 1) :
    (handleBatchMessage th X ps i).filter (fun e => e.1 == h)
      = ps.map fun p => (h, (⟨X, i, some (.obj p)⟩ : Frame α)) := by
  cases hl : lookupTH th (namespaceOf X) with
  | none => rw [hl] at hcount; simp at hcount
  | some handlers =>
      rw [hl] at hcount
      simp only [Option.getD_some] at hcount
      simp only [handleBatchMessage, hl]
      rw [List.filter_flatMap]
      have hcong : ∀ g ∈ handlers,
          (((fun g => ps.map fun p => (g, (⟨X, i, some (.obj p)⟩ : Frame α))) g).filter
              fun e => e.1 == h)
            = if g = h then ps.map (fun p => (h, (⟨X, i, some (.obj p)⟩ : Frame α)))
              else [] := by
        intro g _
        rw [List.filter_map]
        by_cases hg : g = h
        · subst hg; simp [Function.comp_def]
        · simp [Function.comp_def, hg]
      rw [List.flatMap_congr hcong, flatMap_indicator, hcount]
      simp

/-- Claim C3 counterexample: an application handler registered for the
`"s"` namespace receives the raw `s.batch` frame itself — the batch frame
is dispatched as itself to the handlers of its own namespace, so it is not
true that it is never delivered to handlers. -/
theorem batch_frame_delivered_to_s_handler :
    (THandler.user 1, (⟨"s.batch", some "9", some (.batch "x.add" [10, 20])⟩ : Frame Nat))
      ∈ handleTypeMessage [("s", [.system, .user 1]), ("x", [.user 2])]
          (⟨"s.batch", some "9", some (.batch "x.add" [10, 20])⟩ : Frame Nat) := by
  decide

/-- Claim C3 (amended): for an inbound `s.batch` frame with sub-type `X`
and payload sequence `ps`, every handler registered (once) for `X`'s
namespace and not registered for the `"s"` namespace is invoked exactly
once per payload, in payload order, with the synthetic frame
`{t: X, i: outer correlation id, p: payload}` — and in particular never
receives the batch frame itself; the raw batch frame is delivered only to
the handlers of the `"s"` namespace (among them the built-in unwrapper). -/
theorem batch_unwrap_per_namespace_handler {α : Type} (th : TypeHandlers)
    (X : String) (ps : List α) (i : Option String) (h : THandler)
    (hs1 : ((lookupTH th "s").getD []).count .system = 1)
    (hns : ((lookupTH th (namespaceOf X)).getD []).count h = 1)
    (hnos : h ∉ (lookupTH th "s").getD []) :
    (handleTypeMessage th (⟨"s.batch", i, some (.batch X ps)⟩ : Frame α)).filter
        (fun e => e.1 == h)
      = ps.map fun p => (h, (⟨X, i, some (.obj p)⟩ : Frame α)) := by
  have hne : ("s.batch" : String) ≠ "" := by decide
  have hnsb : namespaceOf "s.batch" = "s" := by decide
  simp only [handleTypeMessage, hne, if_false, hnsb]
  rw [List.filter_flatMap]
  have hcong : ∀ g ∈ (lookupTH th "s").getD [],
      ((dispatchOne th (⟨"s.batch", i, some (.batch X ps)⟩ : Frame α) g).filter
          fun e => e.1 == h)
        = if g = THandler.system
          then ps.map (fun p => (h, (⟨X, i, some (.obj p)⟩ : Frame α)))
          else [] := by
    intro g hg
    have hgh : g ≠ h := fun hcontra => hnos (hcontra ▸ hg)
    cases g with
    | system =>
        have hsys : systemHandlerCalls th (⟨"s.batch", i, some (.batch X ps)⟩ : Frame α)
            = handleBatchMessage th X ps i := by
          simp [systemHandlerCalls]
        simp only [dispatchOne, hsys]
        rw [List.filter_cons_of_neg (by simp [hgh]),
          filter_handleBatchMessage th X ps i h hns]
        simp
    | user n =>
        simp only [dispatchOne]
        rw [List.filter_cons_of_neg (by simp [hgh])]
        simp
  rw [List.flatMap_congr hcong, flatMap_indicator, hs1]
  simp

theorem batch_unwrap_per_namespace_handler_witness :
    (handleTypeMessage [("s", [.system]), ("x", [.user 2])]
        (⟨"s.batch", some "9", some (.batch "x.add" [10, 20])⟩ : Frame Nat)).filter
        (fun e => e.1 == THandler.user 2)
      = [(THandler.user 2, (⟨"x.add", some "9", some (.obj 10)⟩ : Frame Nat)),
         (THandler.user 2, (⟨"x.add", some "9", some (.obj 20)⟩ : Frame Nat))] := by
  exact batch_unwrap_per_namespace_handler [("s", [.system]), ("x", [.user 2])]
    "x.add" [10, 20] (some "9") (THandler.user 2) (by decide) (by decide) (by decide)

/-! ## Channel subscription manager (the current `useChannels` module)

The manager keeps a `Map<string, Subscription>` keyed by the path
`` `${channel_type}/${pk}` ``; a `Subscription` extends `Set<number>` (its
consumer ids) with a channel, a tri-state status and an optional armed
leave timer.  `count()` yields 1, 2, …; `counter` is the number of ids
already issued.  `sent` records the `channel.subscribe` calls and
`channel.leave` sends, in order. -/

/-- `{channel_type, pk}` — a channel identity. -/
structure EnvelopeChannel where
  channel_type : String
  pk : Nat
deriving DecidableEq, Repr

/-- `SubscriptionStatus`: None = 0, Subscribing = 1, Subscribed = 2. -/
inductive SubscriptionStatus
  | sNone
  | sSubscribing
  | sSubscribed
deriving DecidableEq, Repr

/-- One `Subscription`: its channel, consumer-id set (insertion order),
status, and the armed leave timer (carrying its delay) if any. -/
structure Subscription where
  channel : EnvelopeChannel
  consumers : List Nat
  status : SubscriptionStatus
  leaveTimeout : Option Nat
deriving DecidableEq, Repr

/-- `shouldLeave`: no consumers and currently Subscribed. -/
def Subscription.shouldLeave (s : Subscription) : Bool :=
  s.consumers.isEmpty && (s.status == .sSubscribed)

/-- `shouldSubscribe`: some consumer and status None. -/
def Subscription.shouldSubscribe (s : Subscription) : Bool :=
  !s.consumers.isEmpty && (s.status == .sNone)

/-- `Set.add`: no-op when the id is already present. -/
def addConsumer (l : List Nat) (id : Nat) : List Nat :=
  if id ∈ l then l else l ++ [id]

/-- `Set.delete`. -/
def removeConsumer (l : List Nat) (id : Nat) : List Nat :=
  l.filter fun x => x != id

/-- Outbound traffic of the subscription manager. -/
inductive ChanFrame
  | subscribeReq (ch : EnvelopeChannel)
  | leaveReq (ch : EnvelopeChannel)
deriving DecidableEq, Repr

/-- State of one `useChannels` instance. -/
structure ChannelsState where
  subs : List (String × Subscription)
  counter : Nat
  isOpen : Bool
  sent : List ChanFrame
  leaveDelay : Nat
deriving DecidableEq, Repr

/-- `` `${channel.channel_type}/${channel.pk}` `` — the map key. -/
def pathOf (ch : EnvelopeChannel) : String :=
  ch.channel_type ++ "/" ++ toString ch.pk

def lookupSub (subs : List (String × Subscription)) (path : String) :
    Option Subscription :=
  (subs.find? fun e => e.1 == path).map (·.2)

def updateSub (subs : List (String × Subscription)) (path : String)
    (f : Subscription → Subscription) : List (String × Subscription) :=
  subs.map fun e => if e.1 = path then (e.1, f e.2) else e

/-- `getSubscription`: look up, lazily creating a fresh `Subscription`. -/
def ensureSub (subs : List (String × Subscription)) (ch : EnvelopeChannel) :
    List (String × Subscription) :=
  if (lookupSub subs (pathOf ch)).isSome then subs
  else subs ++ [(pathOf ch, ⟨ch, [], .sNone, none⟩)]

/-- `subscribe(channel_type, pk)`: draws a fresh consumer id, gets or
creates the Subscription, adds the id, clears any pending leave timer;
then, when `shouldSubscribe && socket.isOpen`, the synchronous prefix of
`performSubscribe` sets the status to Subscribing and issues the
`channel.subscribe` call. -/
def subscribeFn (st : ChannelsState) (channel_type : String) (pk : Nat) :
    ChannelsState :=
  let ch : EnvelopeChannel := ⟨channel_type, pk⟩
  let id := st.counter + 1
  let subs1 := ensureSub st.subs ch
  match lookupSub subs1 (pathOf ch) with
  | none => { st with counter := id, subs := subs1 }
  | some s0 =>
      let s1 := { s0 with consumers := addConsumer s0.consumers id, leaveTimeout := none }
      if s1.shouldSubscribe && st.isOpen then
        { st with
            counter := id,
            subs := updateSub subs1 (pathOf ch) (fun _ => { s1 with status := .sSubscribing }),
            sent := st.sent ++ [.subscribeReq s1.channel] }
      else
        { st with counter := id, subs := updateSub subs1 (pathOf ch) (fun _ => s1) }

/-- The `leave(delay?)` closure for consumer `id` of channel `ch`: deletes
the id; when `shouldLeave` now holds, clears any pending timer and arms a
new one for `delay` (default `options.leaveDelay`). -/
def leaveFn (st : ChannelsState) (ch : EnvelopeChannel) (id : Nat)
    (delay : Option Nat) : ChannelsState :=
  match lookupSub st.subs (pathOf ch) with
  | none => st
  | some s =>
      let s1 := { s with consumers := removeConsumer s.consumers id }
      if s1.shouldLeave then
        { st with
            subs := updateSub st.subs (pathOf ch)
              (fun _ => { s1 with leaveTimeout := some (delay.getD st.leaveDelay) }) }
      else
        { st with subs := updateSub st.subs (pathOf ch) (fun _ => s1) }

/-- Resolution of an outstanding `channel.subscribe` call: the
continuation of `performSubscribe` sets the status to Subscribed. -/
def ackFn (st : ChannelsState) (ch : EnvelopeChannel) : ChannelsState :=
  if (lookupSub st.subs (pathOf ch)).isSome then
    { st with
        subs := updateSub st.subs (pathOf ch) (fun s => { s with status := .sSubscribed }) }
  else st

/-- The armed leave timer fires: `performLeave` sends `channel.leave`
(fire-and-forget) and resets the status to None. -/
def fireLeaveFn (st : ChannelsState) (ch : EnvelopeChannel) : ChannelsState :=
  match lookupSub st.subs (pathOf ch) with
  | none => st
  | some s =>
      match s.leaveTimeout with
      | none => st
      | some _ =>
          { st with
              subs := updateSub st.subs (pathOf ch)
                (fun s2 => { s2 with status := .sNone, leaveTimeout := none }),
              sent := st.sent ++ [.leaveReq s.channel] }

/-- readyState handler, non-Open branch: every Subscription's status is
reset to None; nothing is sent. -/
def readyClosedFn (st : ChannelsState) : ChannelsState :=
  { st with
      isOpen := false,
      subs := st.subs.map fun e => (e.1, { e.2 with status := .sNone }) }

/-- One iteration of the readyState Open branch: destructure the live map
entry and call the ordinary `subscribe` when it `shouldSubscribe`. -/
def readyOpenStep (acc : ChannelsState) (e : String × Subscription) :
    ChannelsState :=
  match lookupSub acc.subs e.1 with
  | some s =>
      if s.shouldSubscribe then
        subscribeFn acc s.channel.channel_type s.channel.pk
      else acc
  | none => acc

/-- readyState handler, Open branch: iterate the subscriptions and call
the ordinary `subscribe` for every one that `shouldSubscribe` (reading the
live map entry at visit time). -/
def readyOpenFn (st : ChannelsState) : ChannelsState :=
  st.subs.foldl readyOpenStep { st with isOpen := true }

/-- Events of the subscription manager. -/
inductive ChEvent
  | subscribe (channel_type : String) (pk : Nat)
  | leave (ch : EnvelopeChannel) (id : Nat) (delay : Option Nat)
  | ack (ch : EnvelopeChannel)
  | fireLeave (ch : EnvelopeChannel)
  | ready (b : Bool)
deriving DecidableEq, Repr

def chStep (st : ChannelsState) : ChEvent → ChannelsState
  | .subscribe ct pk => subscribeFn st ct pk
  | .leave ch id d => leaveFn st ch id d
  | .ack ch => ackFn st ch
  | .fireLeave ch => fireLeaveFn st ch
  | .ready b => if b then readyOpenFn st else readyClosedFn st

def runCh (st : ChannelsState) (es : List ChEvent) : ChannelsState :=
  es.foldl chStep st

/-- A fresh `useChannels` instance. -/
def initCh (leaveDelay : Nat) (b : Bool) : ChannelsState :=
  { subs := [], counter := 0, isOpen := b, sent := [], leaveDelay := leaveDelay }

/-- Number of `channel.subscribe` requests among the sent frames. -/
def subReqCount (l : List ChanFrame) : Nat :=
  l.countP fun fr => match fr with
    | .subscribeReq _ => true
    | .leaveReq _ => false

theorem addConsumer_isEmpty (l : List Nat) (id : Nat) :
    (addConsumer l id).isEmpty = false := by
  unfold addConsumer
  split
  · rename_i hmem
    cases l with
    | nil => simp at hmem
    | cons a tl => rfl
  · simp

/-- Events touching only the channel `(ct, pk)` and completing no leave:
subscribe/leave/ack on that channel; no leave-timer firing, no ready-state
transition. -/
def C4Allowed (ct : String) (pk : Nat) : ChEvent → Bool
  | .subscribe ct' pk' => ct' == ct && pk' == pk
  | .leave ch _ _ => ch == ⟨ct, pk⟩
  | .ack ch => ch == ⟨ct, pk⟩
  | .fireLeave _ => false
  | .ready _ => false

def isSubscribeEvent : ChEvent → Bool
  | .subscribe _ _ => true
  | _ => false

/-- Invariant for the C4 traces: the connection stays open, and either the
channel was never subscribed (no entry, nothing sent) or it has an entry
whose status is not None and exactly one subscribe request was sent. -/
def C4Inv (ct : String) (pk : Nat) (st : ChannelsState) : Prop :=
  st.isOpen = true ∧
  ((st.subs = [] ∧ subReqCount st.sent = 0) ∨
   (∃ sub : Subscription, st.subs = [(pathOf ⟨ct, pk⟩, sub)] ∧
      sub.status ≠ .sNone ∧ subReqCount st.sent = 1))

theorem subscribeFn_fresh (st : ChannelsState) (ct : String) (pk : Nat)
    (hsubs : st.subs = []) (hopen : st.isOpen = true) :
    subscribeFn st ct pk
      = { st with
            counter := st.counter + 1,
            subs := [(pathOf ⟨ct, pk⟩,
              ⟨⟨ct, pk⟩, [st.counter + 1], .sSubscribing, none⟩)],
            sent := st.sent ++ [.subscribeReq ⟨ct, pk⟩] } := by
  simp [subscribeFn, hsubs, ensureSub, lookupSub, updateSub, addConsumer,
    Subscription.shouldSubscribe, hopen]

theorem subscribeFn_existing (st : ChannelsState) (ct : String) (pk : Nat)
    (sub : Subscription) (hsubs : st.subs = [(pathOf ⟨ct, pk⟩, sub)])
    (hstat : sub.status ≠ .sNone) :
    subscribeFn st ct pk
      = { st with
            counter := st.counter + 1,
            subs := [(pathOf ⟨ct, pk⟩,
              { sub with consumers := addConsumer sub.consumers (st.counter + 1),
                         leaveTimeout := none })] } := by
  have hstatb : (sub.status == SubscriptionStatus.sNone) = false := by
    cases hs : sub.status <;> simp_all
  simp [subscribeFn, hsubs, ensureSub, lookupSub, updateSub,
    Subscription.shouldSubscribe, hstatb]

theorem leaveFn_empty (st : ChannelsState) (ch : EnvelopeChannel) (id : Nat)
    (d : Option Nat) (hsubs : st.subs = []) : leaveFn st ch id d = st := by
  simp [leaveFn, hsubs, lookupSub]

theorem leaveFn_existing (st : ChannelsState) (ch : EnvelopeChannel) (id : Nat)
    (d : Option Nat) (sub : Subscription)
    (hsubs : st.subs = [(pathOf ch, sub)]) :
    ∃ sub2 : Subscription,
      leaveFn st ch id d = { st with subs := [(pathOf ch, sub2)] } ∧
      sub2.status = sub.status := by
  by_cases hsl : ({ sub with
      consumers := removeConsumer sub.consumers id } : Subscription).shouldLeave
  · refine ⟨{ sub with consumers := removeConsumer sub.consumers id,
                       leaveTimeout := some (d.getD st.leaveDelay) }, ?_, rfl⟩
    simp [leaveFn, hsubs, lookupSub, updateSub, hsl]
  · refine ⟨{ sub with consumers := removeConsumer sub.consumers id }, ?_, rfl⟩
    simp [leaveFn, hsubs, lookupSub, updateSub, hsl]

theorem ackFn_empty (st : ChannelsState) (ch : EnvelopeChannel)
    (hsubs : st.subs = []) : ackFn st ch = st := by
  simp [ackFn, hsubs, lookupSub]

theorem ackFn_existing (st : ChannelsState) (ch : EnvelopeChannel)
    (sub : Subscription) (hsubs : st.subs = [(pathOf ch, sub)]) :
    ackFn st ch = { st with subs := [(pathOf ch, { sub with status := .sSubscribed })] } := by
  simp [ackFn, hsubs, lookupSub, updateSub]

theorem subReqCount_append_subscribe (l : List ChanFrame) (ch : EnvelopeChannel) :
    subReqCount (l ++ [.subscribeReq ch]) = subReqCount l + 1 := by
  simp [subReqCount, List.countP_append, List.countP_cons]

theorem c4_step (ct : String) (pk : Nat) (st : ChannelsState) (e : ChEvent)
    (hinv : C4Inv ct pk st) (he : C4Allowed ct pk e = true) :
    C4Inv ct pk (chStep st e) ∧
    ((st.subs ≠ [] ∨ isSubscribeEvent e = true) → (chStep st e).subs ≠ []) := by
  obtain ⟨hopen, hcase⟩ := hinv
  cases e with
  | subscribe ct2 pk2 =>
      have hct : ct2 = ct ∧ pk2 = pk := by simpa [C4Allowed] using he
      obtain ⟨rfl, rfl⟩ := hct
      rcases hcase with ⟨hsubs, hcount⟩ | ⟨sub, hsubs, hstat, hcount⟩
      · have heq := subscribeFn_fresh st ct2 pk2 hsubs hopen
        have heq2 : chStep st (.subscribe ct2 pk2) = subscribeFn st ct2 pk2 := rfl
        rw [heq2, heq]
        refine ⟨⟨hopen, Or.inr ⟨_, rfl, by simp, ?_⟩⟩, fun _ => by simp⟩
        simp [subReqCount_append_subscribe, hcount]
      · have heq := subscribeFn_existing st ct2 pk2 sub hsubs hstat
        have heq2 : chStep st (.subscribe ct2 pk2) = subscribeFn st ct2 pk2 := rfl
        rw [heq2, heq]
        exact ⟨⟨hopen, Or.inr ⟨_, rfl, by simpa using hstat, hcount⟩⟩, fun _ => by simp⟩
  | leave ch id d =>
      have hch : ch = ⟨ct, pk⟩ := by simpa [C4Allowed] using he
      rcases hcase with ⟨hsubs, hcount⟩ | ⟨sub, hsubs, hstat, hcount⟩
      · have heq : chStep st (.leave ch id d) = st := leaveFn_empty st ch id d hsubs
        rw [heq]
        refine ⟨⟨hopen, Or.inl ⟨hsubs, hcount⟩⟩, fun hne => ?_⟩
        rcases hne with hne | hne
        · exact hne
        · simp [isSubscribeEvent] at hne
      · obtain ⟨sub2, heq, hstat2⟩ :=
          leaveFn_existing st ch id d sub (hch ▸ hsubs)
        have heq2 : chStep st (.leave ch id d) = leaveFn st ch id d := rfl
        rw [heq2, heq]
        refine ⟨⟨hopen, Or.inr ⟨sub2, by rw [hch], by rw [hstat2]; exact hstat, hcount⟩⟩,
          fun _ => by simp⟩
  | ack ch =>
      have hch : ch = ⟨ct, pk⟩ := by simpa [C4Allowed] using he
      rcases hcase with ⟨hsubs, hcount⟩ | ⟨sub, hsubs, hstat, hcount⟩
      · have heq : chStep st (.ack ch) = st := ackFn_empty st ch hsubs
        rw [heq]
        refine ⟨⟨hopen, Or.inl ⟨hsubs, hcount⟩⟩, fun hne => ?_⟩
        rcases hne with hne | hne
        · exact hne
        · simp [isSubscribeEvent] at hne
      · have heq : chStep st (.ack ch)
            = { st with subs := [(pathOf ch, { sub with status := .sSubscribed })] } :=
          ackFn_existing st ch sub (hch ▸ hsubs)
        rw [heq]
        exact ⟨⟨hopen, Or.inr ⟨_, by rw [hch], by simp, hcount⟩⟩, fun _ => by simp⟩
  | fireLeave ch => simp [C4Allowed] at he
  | ready b => simp [C4Allowed] at he

theorem c4_run (ct : String) (pk : Nat) (es : List ChEvent) :
    ∀ st : ChannelsState, C4Inv ct pk st → (∀ e ∈ es, C4Allowed ct pk e = true) →
    C4Inv ct pk (runCh st es) ∧
    ((st.subs ≠ [] ∨ ∃ e ∈ es, isSubscribeEvent e = true) → (runCh st es).subs ≠ []) := by
  induction es with
  | nil =>
      intro st hinv _
      refine ⟨hinv, fun hne => ?_⟩
      rcases hne with hne | ⟨e, he, _⟩
      · exact hne
      · simp at he
  | cons e tl ih =>
      intro st hinv hall
      have he := hall e (List.mem_cons_self e tl)
      have htl : ∀ x ∈ tl, C4Allowed ct pk x = true :=
        fun x hx => hall x (List.mem_cons_of_mem e hx)
      obtain ⟨hinv', hne'⟩ := c4_step ct pk st e hinv he
      obtain ⟨hres, hne''⟩ := ih (chStep st e) hinv' htl
      refine ⟨hres, fun hcond => ?_⟩
      rcases hcond with hcond | ⟨x, hx, hsx⟩
      · exact hne'' (Or.inl (hne' (Or.inl hcond)))
      · rcases List.mem_cons.mp hx with hxe | hx'
        · exact hne'' (Or.inl (hne' (Or.inr (hxe ▸ hsx))))
        · exact hne'' (Or.inr ⟨x, hx', hsx⟩)

theorem lookupSub_ensureSub (l : List (String × Subscription)) (ch : EnvelopeChannel) :
    lookupSub (ensureSub l ch) (pathOf ch)
      = some ((lookupSub l (pathOf ch)).getD ⟨ch, [], .sNone, none⟩) := by
  cases hl : lookupSub l (pathOf ch) with
  | some s => simp [ensureSub, hl]
  | none =>
      have hf : l.find? (fun e => e.1 == pathOf ch) = none := by
        rcases hff : l.find? (fun e => e.1 == pathOf ch) with _ | e
        · exact hff
        · rw [lookupSub, hff] at hl
          simp at hl
      simp [ensureSub, hl, lookupSub, List.find?_append, hf]

/-- The request-emission condition of `subscribe`: a `channel.subscribe`
frame is issued exactly when the connection is open and the subscription's
status (None for a not-yet-existing entry) is None — the consumer set is
always non-empty at the check since the call just added its own consumer
id. -/
theorem subscribeFn_sent_characterization (st : ChannelsState) (ct : String) (pk : Nat) :
    (subscribeFn st ct pk).sent
      = st.sent ++
        (if st.isOpen = true ∧
            ((lookupSub st.subs (pathOf ⟨ct, pk⟩)).map Subscription.status).getD .sNone
              = .sNone
          then [ChanFrame.subscribeReq
              (((lookupSub st.subs (pathOf ⟨ct, pk⟩)).map Subscription.channel).getD
                ⟨ct, pk⟩)]
          else []) := by
  have hens := lookupSub_ensureSub st.subs ⟨ct, pk⟩
  cases hl : lookupSub st.subs (pathOf (⟨ct, pk⟩ : EnvelopeChannel)) with
  | none =>
      rw [hl] at hens
      by_cases hopen : st.isOpen
      · simp [subscribeFn, hens, hl, addConsumer, Subscription.shouldSubscribe, hopen]
      · simp [subscribeFn, hens, hl, addConsumer, Subscription.shouldSubscribe, hopen]
  | some s =>
      rw [hl] at hens
      by_cases hopen : st.isOpen
      · by_cases hstat : s.status = .sNone
        · simp [subscribeFn, hens, hl, Subscription.shouldSubscribe,
            addConsumer_isEmpty, hopen, hstat]
        · have hstatb : (s.status == SubscriptionStatus.sNone) = false := by
            simpa using hstat
          simp [subscribeFn, hens, hl, Subscription.shouldSubscribe,
            addConsumer_isEmpty, hopen, hstatb, hstat]
      · simp [subscribeFn, hens, hl, Subscription.shouldSubscribe,
          addConsumer_isEmpty, hopen]

/-- Claim C4: starting from a fresh manager on an open connection, any
sequence of `subscribe(ct, pk)` calls on one channel — interleaved with
leaves that never complete and subscribe acknowledgments, with the
connection open throughout — sends exactly one `channel.subscribe`
request; and in general a subscribe call issues a request exactly when the
connection is open and the subscription's status is None (its consumer set
being non-empty by the just-added consumer id). -/
theorem single_subscribe_request_per_channel (ct : String) (pk : Nat) (ld : Nat)
    (es : List ChEvent)
    (hall : ∀ e ∈ es, C4Allowed ct pk e = true)
    (hsub : ∃ e ∈ es, isSubscribeEvent e = true) :
    subReqCount (runCh (initCh ld true) es).sent = 1 ∧
    (∀ st : ChannelsState, ∀ ct2 : String, ∀ pk2 : Nat,
      (subscribeFn st ct2 pk2).sent
        = st.sent ++
          (if st.isOpen = true ∧
              ((lookupSub st.subs (pathOf ⟨ct2, pk2⟩)).map Subscription.status).getD .sNone
                = .sNone
            then [ChanFrame.subscribeReq
                (((lookupSub st.subs (pathOf ⟨ct2, pk2⟩)).map Subscription.channel).getD
                  ⟨ct2, pk2⟩)]
            else [])) := by
  refine ⟨?_, fun st ct2 pk2 => subscribeFn_sent_characterization st ct2 pk2⟩
  have h0 : C4Inv ct pk (initCh ld true) := ⟨rfl, Or.inl ⟨rfl, rfl⟩⟩
  obtain ⟨hinv, hne⟩ := c4_run ct pk es (initCh ld true) h0 hall
  have hne' := hne (Or.inr hsub)
  rcases hinv.2 with ⟨hempty, _⟩ | ⟨sub, _, _, hcount⟩
  · exact absurd hempty hne'
  · exact hcount

theorem single_subscribe_request_per_channel_witness :
    subReqCount (runCh (initCh 5000 true)
      [.subscribe "test" 42, .ack ⟨"test", 42⟩, .subscribe "test" 42,
       .leave ⟨"test", 42⟩ 1 (some 0), .subscribe "test" 42]).sent = 1 := by
  exact (single_subscribe_request_per_channel "test" 42 5000
    [.subscribe "test" 42, .ack ⟨"test", 42⟩, .subscribe "test" 42,
     .leave ⟨"test", 42⟩ 1 (some 0), .subscribe "test" 42]
    (by decide) ⟨.subscribe "test" 42, by decide, rfl⟩).1

theorem lookupSub_updateSub_self (l : List (String × Subscription)) (p : String)
    (f : Subscription → Subscription) :
    lookupSub (updateSub l p f) p = (lookupSub l p).map f := by
  induction l with
  | nil => rfl
  | cons e tl ih =>
      by_cases he : e.1 = p
      · have heb : (e.1 == p) = true := by simpa using he
        have hupd : updateSub (e :: tl) p f = (e.1, f e.2) :: updateSub tl p f := by
          simp [updateSub, he]
        rw [hupd]
        simp only [lookupSub]
        simp [List.find?_cons, heb]
      · have heb : (e.1 == p) = false := by simpa using he
        have hupd : updateSub (e :: tl) p f = e :: updateSub tl p f := by
          simp [updateSub, he]
        rw [hupd]
        simp only [lookupSub]
        simp only [List.find?_cons, heb, cond_false]
        exact ih

/-- Claim C5: for a Subscribed channel, (a) a leave by one of two live
consumers sends no `channel.leave` frame and arms no leave timer; (b) a
leave by the last consumer sends nothing immediately but arms the leave
timer for the requested delay (default the configured leave delay), and
when it fires exactly one `channel.leave` frame is sent and the status
resets to None; (c) a fresh subscribe cancels a pending leave timer — the
timer is cleared, nothing is sent, the status stays Subscribed and a
subsequent timer firing is a no-op, so zero leave frames result. -/
theorem leave_debounce_behaviour (st : ChannelsState) (ch : EnvelopeChannel)
    (s : Subscription) (a b : Nat) (d : Option Nat)
    (hl : lookupSub st.subs (pathOf ch) = some s)
    (hstat : s.status = .sSubscribed) :
    (s.consumers = [a, b] → a ≠ b → s.leaveTimeout = none →
      (leaveFn st ch a d).sent = st.sent ∧
      ((lookupSub (leaveFn st ch a d).subs (pathOf ch)).map Subscription.leaveTimeout)
        = some none) ∧
    (s.consumers = [b] →
      (leaveFn st ch b d).sent = st.sent ∧
      ((lookupSub (leaveFn st ch b d).subs (pathOf ch)).map Subscription.leaveTimeout)
        = some (some (d.getD st.leaveDelay)) ∧
      (fireLeaveFn (leaveFn st ch b d) ch).sent = st.sent ++ [.leaveReq s.channel] ∧
      ((lookupSub (fireLeaveFn (leaveFn st ch b d) ch).subs (pathOf ch)).map
        Subscription.status) = some .sNone) ∧
    (∀ w : Nat, s.leaveTimeout = some w →
      (subscribeFn st ch.channel_type ch.pk).sent = st.sent ∧
      ((lookupSub (subscribeFn st ch.channel_type ch.pk).subs (pathOf ch)).map
          Subscription.status) = some .sSubscribed ∧
      ((lookupSub (subscribeFn st ch.channel_type ch.pk).subs (pathOf ch)).map
          Subscription.leaveTimeout) = some none ∧
      fireLeaveFn (subscribeFn st ch.channel_type ch.pk) ch
        = subscribeFn st ch.channel_type ch.pk) := by
  refine ⟨fun hcons hab htim => ?_, fun hcons => ?_, fun w htim => ?_⟩
  · have hrem : removeConsumer s.consumers a = [b] := by
      simp [removeConsumer, hcons, Ne.symm hab]
    have hsl : ({ s with consumers := removeConsumer s.consumers a } :
        Subscription).shouldLeave = false := by
      simp [Subscription.shouldLeave, hrem]
    have hleq : leaveFn st ch a d
        = { st with
              subs := updateSub st.subs (pathOf ch)
                (fun _ => { s with consumers := removeConsumer s.consumers a }) } := by
      simp [leaveFn, hl, hsl]
    refine ⟨by rw [hleq], ?_⟩
    rw [hleq]
    simp [lookupSub_updateSub_self, hl, htim]
  · have hrem : removeConsumer s.consumers b = [] := by
      simp [removeConsumer, hcons]
    have hsl : ({ s with consumers := removeConsumer s.consumers b } :
        Subscription).shouldLeave = true := by
      simp [Subscription.shouldLeave, hrem, hstat]
    have hleq : leaveFn st ch b d
        = { st with
              subs := updateSub st.subs (pathOf ch)
                (fun _ => { s with consumers := removeConsumer s.consumers b,
                                   leaveTimeout := some (d.getD st.leaveDelay) }) } := by
      simp [leaveFn, hl, hsl]
    have hlook2 : lookupSub (leaveFn st ch b d).subs (pathOf ch)
        = some { s with consumers := removeConsumer s.consumers b,
                        leaveTimeout := some (d.getD st.leaveDelay) } := by
      rw [hleq]
      simp [lookupSub_updateSub_self, hl]
    have hfsent : (fireLeaveFn (leaveFn st ch b d) ch).sent
        = (leaveFn st ch b d).sent ++ [.leaveReq s.channel] := by
      simp [fireLeaveFn, hlook2]
    have hfsubs : (fireLeaveFn (leaveFn st ch b d) ch).subs
        = updateSub (leaveFn st ch b d).subs (pathOf ch)
            (fun s2 => { s2 with status := .sNone, leaveTimeout := none }) := by
      simp [fireLeaveFn, hlook2]
    refine ⟨by rw [hleq], by rw [hlook2]; rfl, ?_, ?_⟩
    · rw [hfsent, hleq]
    · rw [hfsubs]
      simp [lookupSub_updateSub_self, hlook2]
  · have hstatb : (s.status == SubscriptionStatus.sNone) = false := by
      simp [hstat]
    have hch : (⟨ch.channel_type, ch.pk⟩ : EnvelopeChannel) = ch := rfl
    have hense : ensureSub st.subs (⟨ch.channel_type, ch.pk⟩ : EnvelopeChannel)
        = st.subs := by
      simp [ensureSub, hch, hl]
    have hseq : subscribeFn st ch.channel_type ch.pk
        = { st with
              counter := st.counter + 1,
              subs := updateSub st.subs (pathOf ch)
                (fun _ => { s with
                    consumers := addConsumer s.consumers (st.counter + 1),
                    leaveTimeout := none }) } := by
      simp [subscribeFn, hch, hense, hl, Subscription.shouldSubscribe, hstatb]
    have hlook2 : lookupSub (subscribeFn st ch.channel_type ch.pk).subs (pathOf ch)
        = some { s with consumers := addConsumer s.consumers (st.counter + 1),
                        leaveTimeout := none } := by
      rw [hseq]
      simp [lookupSub_updateSub_self, hl]
    refine ⟨by rw [hseq], by rw [hlook2]; simp [hstat], by rw [hlook2]; rfl, ?_⟩
    simp [fireLeaveFn, hlook2]

theorem leave_debounce_behaviour_witness :
    (leaveFn ⟨[("test/42", ⟨⟨"test", 42⟩, [1, 2], .sSubscribed, none⟩)], 2, true, [], 5000⟩
        ⟨"test", 42⟩ 1 (some 0)).sent = [] ∧
    (fireLeaveFn (leaveFn
        ⟨[("test/42", ⟨⟨"test", 42⟩, [2], .sSubscribed, none⟩)], 2, true, [], 5000⟩
        ⟨"test", 42⟩ 2 (some 0)) ⟨"test", 42⟩).sent
      = [ChanFrame.leaveReq ⟨"test", 42⟩] ∧
    ((lookupSub (subscribeFn
        ⟨[("test/42", ⟨⟨"test", 42⟩, [], .sSubscribed, some 7⟩)], 2, true, [], 5000⟩
        "test" 42).subs (pathOf ⟨"test", 42⟩)).map Subscription.status)
      = some .sSubscribed := by
  refine ⟨?_, ?_, ?_⟩
  · exact ((leave_debounce_behaviour
      ⟨[("test/42", ⟨⟨"test", 42⟩, [1, 2], .sSubscribed, none⟩)], 2, true, [], 5000⟩
      ⟨"test", 42⟩ ⟨⟨"test", 42⟩, [1, 2], .sSubscribed, none⟩ 1 2 (some 0)
      (by decide) rfl).1 rfl (by decide) rfl).1
  · exact ((leave_debounce_behaviour
      ⟨[("test/42", ⟨⟨"test", 42⟩, [2], .sSubscribed, none⟩)], 2, true, [], 5000⟩
      ⟨"test", 42⟩ ⟨⟨"test", 42⟩, [2], .sSubscribed, none⟩ 1 2 (some 0)
      (by decide) rfl).2.1 rfl).2.2.1
  · exact ((leave_debounce_behaviour
      ⟨[("test/42", ⟨⟨"test", 42⟩, [], .sSubscribed, some 7⟩)], 2, true, [], 5000⟩
      ⟨"test", 42⟩ ⟨⟨"test", 42⟩, [], .sSubscribed, some 7⟩ 1 2 (some 0)
      (by decide) rfl).2.2 7 rfl).2.1

/-- Well-formedness of the subscription map: distinct keys, each entry
keyed by its own channel's path. -/
def WFSubs (l : List (String × Subscription)) : Prop :=
  (l.map Prod.fst).Nodup ∧ ∀ e ∈ l, e.1 = pathOf e.2.channel

theorem updateSub_keys (l : List (String × Subscription)) (p : String)
    (f : Subscription → Subscription) :
    (updateSub l p f).map Prod.fst = l.map Prod.fst := by
  unfold updateSub
  rw [List.map_map]
  refine List.map_congr_left fun e _ => ?_
  by_cases he : e.1 = p <;> simp [he]

theorem WFSubs_updateSub (l : List (String × Subscription)) (p : String)
    (f : Subscription → Subscription)
    (hf : ∀ s : Subscription, pathOf s.channel = p → pathOf (f s).channel = p)
    (h : WFSubs l) : WFSubs (updateSub l p f) := by
  obtain ⟨hnd, hkey⟩ := h
  refine ⟨by rw [updateSub_keys]; exact hnd, ?_⟩
  intro e he
  rcases List.mem_map.mp he with ⟨e0, he0, rfl⟩
  by_cases h0 : e0.1 = p
  · rw [if_pos h0]
    show e0.1 = pathOf (f e0.2).channel
    rw [h0]
    exact (hf e0.2 (by rw [← hkey e0 he0, h0])).symm
  · rw [if_neg h0]
    exact hkey e0 he0

theorem lookupSub_updateSub_other (l : List (String × Subscription))
    (p q : String) (f : Subscription → Subscription) (hpq : q ≠ p) :
    lookupSub (updateSub l p f) q = lookupSub l q := by
  induction l with
  | nil => rfl
  | cons e tl ih =>
      by_cases he : e.1 = p
      · have h1 : (e.1 == q) = false := by
          simp only [beq_eq_false_iff_ne, ne_eq, he]
          exact fun hc => hpq hc.symm
        have hupd : updateSub (e :: tl) p f = (e.1, f e.2) :: updateSub tl p f := by
          simp [updateSub, he]
        rw [hupd]
        simp only [lookupSub, List.find?_cons, h1, cond_false]
        exact ih
      · have hupd : updateSub (e :: tl) p f = e :: updateSub tl p f := by
          simp [updateSub, he]
        rw [hupd]
        by_cases heq : e.1 = q
        · have h1 : (e.1 == q) = true := by simpa using heq
          simp [lookupSub, List.find?_cons, h1]
        · have h1 : (e.1 == q) = false := by simpa using heq
          simp only [lookupSub, List.find?_cons, h1, cond_false]
          exact ih

theorem lookupSub_of_mem (l : List (String × Subscription))
    (hnd : (l.map Prod.fst).Nodup) (k : String) (sub : Subscription)
    (hmem : (k, sub) ∈ l) : lookupSub l k = some sub := by
  induction l with
  | nil => simp at hmem
  | cons e tl ih =>
      rw [List.map_cons] at hnd
      have hnd2 := List.nodup_cons.mp hnd
      rcases List.mem_cons.mp hmem with hhead | hmem2
      · rw [← hhead]
        simp [lookupSub, List.find?_cons]
      · have hk : (e.1 == k) = false := by
          simp only [beq_eq_false_iff_ne, ne_eq]
          intro hc
          exact hnd2.1 (hc ▸ List.mem_map.mpr ⟨(k, sub), hmem2, rfl⟩)
        simp only [lookupSub, List.find?_cons, hk, cond_false]
        exact ih hnd2.2 hmem2

theorem lookupSub_spec (l : List (String × Subscription)) (k : String)
    (s : Subscription) (hwf : WFSubs l) (h : lookupSub l k = some s) :
    (k, s) ∈ l ∧ pathOf s.channel = k := by
  rcases hfind : l.find? (fun e => e.1 == k) with _ | e0
  · rw [lookupSub, hfind] at h
    exact Option.noConfusion h
  · rw [lookupSub, hfind] at h
    have h2 : e0.2 = s := by simpa using h
    have hmem := List.mem_of_find?_eq_some hfind
    have hpred := List.find?_some hfind
    have hk : e0.1 = k := by simpa using hpred
    have hkey := hwf.2 e0 hmem
    constructor
    · rw [← h2, ← hk]
      exact hmem
    · rw [← h2, ← hkey, hk]

/-- `subscribe` on an existing entry that `shouldSubscribe`, connection
open: transitions it to Subscribing and sends one `channel.subscribe`. -/
theorem subscribeFn_existing_should (st : ChannelsState) (ch : EnvelopeChannel)
    (s : Subscription) (hl : lookupSub st.subs (pathOf ch) = some s)
    (hss : s.shouldSubscribe = true) (hopen : st.isOpen = true) :
    subscribeFn st ch.channel_type ch.pk
      = { st with
            counter := st.counter + 1,
            subs := updateSub st.subs (pathOf ch)
              (fun _ => { s with
                  consumers := addConsumer s.consumers (st.counter + 1),
                  leaveTimeout := none,
                  status := .sSubscribing }),
            sent := st.sent ++ [.subscribeReq s.channel] } := by
  have hch : (⟨ch.channel_type, ch.pk⟩ : EnvelopeChannel) = ch := rfl
  have hstat : (s.status == SubscriptionStatus.sNone) = true := by
    have := (Bool.and_eq_true _ _).mp hss
    exact this.2
  have hense : ensureSub st.subs (⟨ch.channel_type, ch.pk⟩ : EnvelopeChannel)
      = st.subs := by
    simp [ensureSub, hch, hl]
  simp [subscribeFn, hch, hense, hl, Subscription.shouldSubscribe,
    addConsumer_isEmpty, hstat, hopen]

theorem readyOpen_fold (rest : List (String × Subscription)) :
    ∀ acc : ChannelsState,
      acc.isOpen = true → WFSubs acc.subs →
      (∀ e ∈ rest, lookupSub acc.subs e.1 = some e.2) →
      (rest.map Prod.fst).Nodup →
      (rest.foldl readyOpenStep acc).sent
        = acc.sent ++ (rest.filter (fun e => e.2.shouldSubscribe)).map
            (fun e => ChanFrame.subscribeReq e.2.channel) := by
  induction rest with
  | nil => intro acc _ _ _ _; simp
  | cons e rest2 ih =>
      intro acc hopen hwf hlook hnd
      rw [List.map_cons] at hnd
      have hnd2 := List.nodup_cons.mp hnd
      have hle : lookupSub acc.subs e.1 = some e.2 :=
        hlook e (List.mem_cons_self e rest2)
      have hpath : pathOf e.2.channel = e.1 :=
        (lookupSub_spec acc.subs e.1 e.2 hwf hle).2
      have hstep : readyOpenStep acc e
          = if e.2.shouldSubscribe then
              subscribeFn acc e.2.channel.channel_type e.2.channel.pk
            else acc := by
        simp [readyOpenStep, hle]
      by_cases hss : e.2.shouldSubscribe
      · have hsub := subscribeFn_existing_should acc e.2.channel e.2
          (by rw [hpath]; exact hle) hss hopen
        have hstep2 : readyOpenStep acc e
            = subscribeFn acc e.2.channel.channel_type e.2.channel.pk := by
          rw [hstep, if_pos hss]
        have hopen2 : (subscribeFn acc e.2.channel.channel_type e.2.channel.pk).isOpen
            = true := by rw [hsub]; exact hopen
        have hwf2 : WFSubs (subscribeFn acc e.2.channel.channel_type e.2.channel.pk).subs := by
          rw [hsub]
          exact WFSubs_updateSub acc.subs (pathOf e.2.channel)
            (fun _ => { e.2 with
                consumers := addConsumer e.2.consumers (acc.counter + 1),
                leaveTimeout := none, status := .sSubscribing })
            (fun _ _ => rfl) hwf
        have hlook2 : ∀ x ∈ rest2,
            lookupSub (subscribeFn acc e.2.channel.channel_type e.2.channel.pk).subs x.1
              = some x.2 := by
          intro x hx
          have hxk : x.1 ≠ pathOf e.2.channel := by
            rw [hpath]
            intro hc
            exact hnd2.1 (hc ▸ List.mem_map.mpr ⟨x, hx, rfl⟩)
          rw [hsub]
          show lookupSub (updateSub acc.subs (pathOf e.2.channel)
              (fun _ => { e.2 with
                  consumers := addConsumer e.2.consumers (acc.counter + 1),
                  leaveTimeout := none, status := .sSubscribing })) x.1 = some x.2
          rw [lookupSub_updateSub_other acc.subs (pathOf e.2.channel) x.1 _ hxk]
          exact hlook x (List.mem_cons_of_mem e hx)
        have hrec := ih (subscribeFn acc e.2.channel.channel_type e.2.channel.pk)
          hopen2 hwf2 hlook2 hnd2.2
        have hsent2 : (subscribeFn acc e.2.channel.channel_type e.2.channel.pk).sent
            = acc.sent ++ [.subscribeReq e.2.channel] := by
          rw [hsub]
        calc ((e :: rest2).foldl readyOpenStep acc).sent
            = (rest2.foldl readyOpenStep
                (subscribeFn acc e.2.channel.channel_type e.2.channel.pk)).sent := by
              rw [List.foldl_cons, hstep2]
          _ = (subscribeFn acc e.2.channel.channel_type e.2.channel.pk).sent
                ++ (rest2.filter (fun x => x.2.shouldSubscribe)).map
                  (fun x => ChanFrame.subscribeReq x.2.channel) := hrec
          _ = acc.sent ++ ((e :: rest2).filter (fun x => x.2.shouldSubscribe)).map
                (fun x => ChanFrame.subscribeReq x.2.channel) := by
              rw [hsent2,
                @List.filter_cons_of_pos _ (fun x => x.2.shouldSubscribe) e rest2 hss]
              simp
      · have hstep2 : readyOpenStep acc e = acc := by
          rw [hstep, if_neg hss]
        have hrec := ih acc hopen hwf
          (fun x hx => hlook x (List.mem_cons_of_mem e hx)) hnd2.2
        rw [List.foldl_cons, hstep2, hrec,
          @List.filter_cons_of_neg _ (fun x => x.2.shouldSubscribe) e rest2 hss]

theorem lookupSub_resetStatus (l : List (String × Subscription)) (p : String) :
    lookupSub (l.map fun e => (e.1, { e.2 with status := SubscriptionStatus.sNone })) p
      = (lookupSub l p).map fun s => { s with status := SubscriptionStatus.sNone } := by
  induction l with
  | nil => rfl
  | cons e tl ih =>
      by_cases he : e.1 = p
      · have h1 : (e.1 == p) = true := by simpa using he
        simp [lookupSub, List.find?_cons, h1]
      · have h1 : (e.1 == p) = false := by simpa using he
        simp only [List.map_cons, lookupSub, List.find?_cons, h1, cond_false]
        exact ih

/-- Claim C6: on a ready-state transition to a non-Open state, every
Subscription's status is reset to None — keys and consumer sets untouched
— and no frame (in particular no `channel.leave`) is sent; on a transition
to Open, a `channel.subscribe` request is sent for exactly the
subscriptions whose consumer set is non-empty and status is None
(`shouldSubscribe`), in map order, without any application `subscribe`
call. -/
theorem ready_transitions_reset_and_resubscribe (st : ChannelsState)
    (hwf : WFSubs st.subs) :
    ((readyClosedFn st).sent = st.sent ∧
     (∀ e ∈ (readyClosedFn st).subs, e.2.status = .sNone) ∧
     (readyClosedFn st).subs.map Prod.fst = st.subs.map Prod.fst ∧
     (∀ p : String, (lookupSub (readyClosedFn st).subs p).map Subscription.consumers
        = (lookupSub st.subs p).map Subscription.consumers)) ∧
    (readyOpenFn st).sent
      = st.sent ++ (st.subs.filter (fun e => e.2.shouldSubscribe)).map
          (fun e => ChanFrame.subscribeReq e.2.channel) := by
  refine ⟨⟨rfl, ?_, ?_, ?_⟩, ?_⟩
  · intro e he
    have he2 : e ∈ st.subs.map
        (fun e0 => (e0.1, { e0.2 with status := SubscriptionStatus.sNone })) := he
    rcases List.mem_map.mp he2 with ⟨e0, _, rfl⟩
    rfl
  · show (st.subs.map
        (fun e0 => (e0.1, { e0.2 with status := SubscriptionStatus.sNone }))).map Prod.fst
      = st.subs.map Prod.fst
    rw [List.map_map]
    exact List.map_congr_left fun e _ => rfl
  · intro p
    show Option.map Subscription.consumers (lookupSub (st.subs.map
        (fun e0 => (e0.1, { e0.2 with status := SubscriptionStatus.sNone }))) p) = _
    rw [lookupSub_resetStatus st.subs p]
    cases lookupSub st.subs p <;> rfl
  · have hfold := readyOpen_fold st.subs { st with isOpen := true } rfl hwf
      (fun e he => lookupSub_of_mem st.subs hwf.1 e.1 e.2 he) hwf.1
    exact hfold

theorem ready_transitions_reset_and_resubscribe_witness :
    (readyClosedFn
        ⟨[("test/1", ⟨⟨"test", 1⟩, [1], .sSubscribed, none⟩)], 1, true, [], 5000⟩).sent
      = [] ∧
    (readyOpenFn
        ⟨[("a/1", ⟨⟨"a", 1⟩, [1], .sNone, none⟩),
          ("b/2", ⟨⟨"b", 2⟩, [], .sNone, none⟩)], 1, false, [], 5000⟩).sent
      = [ChanFrame.subscribeReq ⟨"a", 1⟩] := by
  constructor
  · exact (ready_transitions_reset_and_resubscribe
      ⟨[("test/1", ⟨⟨"test", 1⟩, [1], .sSubscribed, none⟩)], 1, true, [], 5000⟩
      (by constructor
          · decide
          · intro e he
            simp at he
            rw [he]
            rfl)).1.1
  · exact (ready_transitions_reset_and_resubscribe
      ⟨[("a/1", ⟨⟨"a", 1⟩, [1], .sNone, none⟩),
        ("b/2", ⟨⟨"b", 2⟩, [], .sNone, none⟩)], 1, false, [], 5000⟩
      (by constructor
          · decide
          · intro e he
            rcases List.mem_cons.mp he with h1 | h1
            · rw [h1]; rfl
            · simp at h1
              rw [h1]
              rfl)).2

end EnvelopeClient
